import Mathlib

/-!
Shallow embedding of `src/eda/src/main/kernel.py`: a line-oriented command
interpreter that keeps a table of named pandas DataFrames, loads them from
files, executes user code against them, and reports summary statistics.

Python values decoded from a JSON input line are modelled by `Json`;
the pandas library, the file readers and the `exec` facility are external
collaborators modelled as an abstract environment `Env`.
-/

mutual

/-- A JSON value as decoded by Python's `json.loads`
(`null` ↦ `None`, objects ↦ `dict` with string keys). -/
inductive Json where
  | null : Json
  | bool : Bool → Json
  | num : Int → Json
  | str : String → Json
  | arr : JsonList → Json
  | obj : JsonObj → Json
deriving DecidableEq

/-- The elements of a JSON array. -/
inductive JsonList where
  | nil : JsonList
  | cons : Json → JsonList → JsonList
deriving DecidableEq

/-- The fields of a JSON object (a Python `dict` with string keys). -/
inductive JsonObj where
  | nil : JsonObj
  | cons : String → Json → JsonObj → JsonObj
deriving DecidableEq

end

/-- `d.get(k)` on the decoded object: the value of field `k`, if present
(first occurrence; `json.loads` never produces duplicate keys). -/
def jsonGet : JsonObj → String → Option Json
  | .nil, _ => none
  | .cons k v t, k' => if k = k' then some v else jsonGet t k'

/-- Membership of a value in a JSON array (Python `x in list`). -/
def jsonListMem (x : Json) : JsonList → Bool
  | .nil => false
  | .cons y t => x == y || jsonListMem x t

/-- Membership of a key in a JSON object (Python `x in dict` tests keys). -/
def jsonObjHasKey (k : String) : JsonObj → Bool
  | .nil => false
  | .cons k' _ t => k == k' || jsonObjHasKey k t

/-- An in-memory pandas DataFrame, abstracted to the three textual reports
the kernel extracts from it (`df.info`, `df.describe(include='all')`,
`df.head()`), which are computed by the external pandas library. -/
structure DataFrame where
  info : String
  describe : String
  head : String
deriving DecidableEq

/-- The Python name of a value's type, as it appears in error messages. -/
def typeName : Json → String
  | .null => "NoneType"
  | .bool _ => "bool"
  | .num _ => "int"
  | .str _ => "str"
  | .arr _ => "list"
  | .obj _ => "dict"

/-- Rendering of a value inside an f-string. For strings this is the string
itself; container rendering is abbreviated (no kernel code path relevant to a
claim interpolates a container into a message). -/
def pyStr : Json → String
  | .null => "None"
  | .bool true => "True"
  | .bool false => "False"
  | .num n => toString n
  | .str s => s
  | .arr _ => "[...]"
  | .obj _ => "\x7b...\x7d"

/-- Whether a value may be used as a `dict` key (Python hashability):
lists and dicts are unhashable. -/
def hashable : Json → Bool
  | .arr _ => false
  | .obj _ => false
  | _ => true

/-- Scan for `pat` as a contiguous sublist of the second argument.
Models Python's substring test on character lists. -/
def listContains (pat : List Char) : List Char → Bool
  | [] => pat.isPrefixOf ([] : List Char)
  | c :: t => pat.isPrefixOf (c :: t) || listContains pat t

/-- Python's substring containment `pat in s`. -/
def strContains (s pat : String) : Bool :=
  listContains pat.data s.data

/-- Python's `s.endswith(suffix)`. -/
def endswith (s suffix : String) : Bool :=
  suffix.data.isSuffixOf s.data

example : strContains "XLoadCommandY" "LoadCommand" = true := by decide
example : strContains "LoadCmd" "LoadCommand" = false := by decide
example : endswith "a.csv" ".csv" = true := by decide
example : endswith "a.csvx" ".csv" = false := by decide

/-- A Python `dict` keyed by (hashable) decoded values, as an association
list in insertion order. Used for the module-level `dataframes` table and
for the `exec_globals` environment. -/
def PyDict (α : Type) : Type := List (Json × α)

/-- `d.get(k)` / `d[k]` lookup. -/
def dictGet {α : Type} (d : PyDict α) (k : Json) : Option α :=
  match d with
  | [] => none
  | (k', v) :: t => if k' = k then some v else dictGet t k

/-- `d[k] = v` assignment: overwrite in place if the key is present,
otherwise append. -/
def dictSet {α : Type} (d : PyDict α) (k : Json) (v : α) : PyDict α :=
  match d with
  | [] => [(k, v)]
  | (k', v') :: t => if k' = k then (k', v) :: t else (k', v') :: dictSet t k v

/-- The keys of a dict. -/
def dictKeys {α : Type} (d : PyDict α) : List Json := d.map Prod.fst

/-- The module-level `dataframes` table: dataset name ↦ DataFrame. -/
def DFTable : Type := PyDict DataFrame

/-- A value bound in the `exec_globals` environment: the pandas module
handle (`'pd': pd`) or a loaded DataFrame. -/
inductive PyVal where
  | pandasModule : PyVal
  | dataframe : DataFrame → PyVal
deriving DecidableEq

/-- The variable environment handed to `exec`. -/
def ExecEnv : Type := PyDict PyVal

/-- Outcome of running one piece of user code under `exec`: text the code
itself wrote to stdout and stderr, and either a final environment or the
message of the exception it raised. -/
structure ExecOutcome where
  out : List String
  err : List String
  result : Except String ExecEnv

/-- The external collaborators, as black boxes: the four pandas file
readers (raising = `Except.error` with the exception's message) and the
`exec` facility for arbitrary code text. -/
structure Env where
  read_csv : String → Except String DataFrame
  read_excel : String → Except String DataFrame
  read_json : String → Except String DataFrame
  read_parquet : String → Except String DataFrame
  runCode : String → ExecEnv → ExecOutcome

/-- The sentinel token printed (and flushed) after every input line. -/
def sentinel : String := "<END_OF_OUTPUT>"

/-- `exec_globals = \x7b'pd': pd, **dataframes\x7d`: the dict literal binds
`pd` first, then merges in every `dataframes` entry (later entries
overwrite on key collision). -/
def buildExecGlobals (dataframes : DFTable) : ExecEnv :=
  dataframes.foldl (fun g kv => dictSet g kv.1 (PyVal.dataframe kv.2))
    [(Json.str "pd", PyVal.pandasModule)]

/-- `execute_code`: run the code under `exec` against the merged
environment; any exception is caught and reported as one tagged stderr
line. A non-string `code` makes `exec` itself raise a `TypeError`, also
caught. Returns (stdout lines, stderr lines); the dataframes table is not
touched. -/
def execute_code (env : Env) (dataframes : DFTable) (code_to_exec : Json) :
    List String × List String :=
  match code_to_exec with
  | .str c =>
    match env.runCode c (buildExecGlobals dataframes) with
    | ⟨o, e, .ok _⟩ => (o, e)
    | ⟨o, e, .error msg⟩ => (o, e ++ ["PYTHON_ERROR: " ++ msg])
  | v => ([], ["PYTHON_ERROR: " ++
      "exec() arg 1 must be a string, bytes or code object (" ++ typeName v ++ ")"])

/-- The loader chain of the Load branch: pick a reader by the path's
extension; `raise ValueError` on any other extension. -/
def load_df (env : Env) (path : String) : Except String DataFrame :=
  if endswith path ".csv" then env.read_csv path
  else if endswith path ".xlsx" then env.read_excel path
  else if endswith path ".json" then env.read_json path
  else if endswith path ".parquet" then env.read_parquet path
  else .error ("Unsupported file type for: " ++ path)

/-- The Load branch applied to a possibly non-string `path` value: a
non-string has no `.endswith`, so the attempt raises `AttributeError`
(caught by the branch's handler). -/
def pyLoad (env : Env) : Json → Except String DataFrame
  | .str p => load_df env p
  | v => .error ("'" ++ typeName v ++ "' object has no attribute 'endswith'")

/-- The whole `"LoadCommand"` branch: load, store under `varName`, print a
confirmation; any exception (bad read, unsupported extension, unhashable
`varName` key) is caught and reported on stderr with the path. Returns the
new table, stdout lines and stderr lines. -/
def handle_load (env : Env) (dataframes : DFTable) (fields : JsonObj) :
    DFTable × List String × List String :=
  let path := (jsonGet fields "path").getD .null
  let var_name := (jsonGet fields "varName").getD .null
  match pyLoad env path with
  | .ok df =>
    if hashable var_name then
      (dictSet dataframes var_name df,
       ["Successfully loaded '" ++ pyStr path ++ "' into DataFrame '" ++
        pyStr var_name ++ "'."], [])
    else
      (dataframes, [],
       ["PYTHON_ERROR: Failed to load data from " ++ pyStr path ++
        ". Error: unhashable type: '" ++ typeName var_name ++ "'"])
  | .error e =>
    (dataframes, [],
     ["PYTHON_ERROR: Failed to load data from " ++ pyStr path ++
      ". Error: " ++ e])

/-- The composite report printed by the `"GetInfoCommand"` branch. -/
def metadataReport (var_name : Json) (df : DataFrame) : String :=
  "--- METADATA FOR " ++ pyStr var_name ++ " ---\n\n**Info:**\n" ++ df.info ++
  "\n**Descriptive Statistics:**\n" ++ df.describe ++
  "\n\n**First 5 Rows:**\n" ++ df.head

/-- The `"GetInfoCommand"` branch: look the name up (an unhashable
`varName` makes `dataframes.get` raise an uncaught `TypeError`, modelled
as `Except.error`); print the report if found, a not-found diagnostic
otherwise. -/
def handle_getinfo (dataframes : DFTable) (fields : JsonObj) :
    Except String (List String × List String) :=
  let var_name := (jsonGet fields "varName").getD .null
  if hashable var_name then
    match dictGet dataframes var_name with
    | some df => .ok ([metadataReport var_name df], [])
    | none => .ok ([], ["PYTHON_ERROR: DataFrame '" ++ pyStr var_name ++ "' not found."])
  else
    .error ("unhashable type: '" ++ typeName var_name ++ "'")

/-- Which handler a command's `type` value selects. -/
inductive Handler where
  | load : Handler
  | execCmd : Handler
  | getinfo : Handler
deriving DecidableEq

/-- Python's `needle in v`: substring test on a string, element membership
on a list, key membership on a dict; a `TypeError` (modelled as
`Except.error`) on `None`, booleans and numbers. -/
def pythonIn (needle : String) : Json → Except String Bool
  | .str s => .ok (strContains s needle)
  | .arr xs => .ok (jsonListMem (.str needle) xs)
  | .obj kvs => .ok (jsonObjHasKey needle kvs)
  | v => .error ("argument of type '" ++ typeName v ++ "' is not iterable")

/-- The dispatch chain of `main`, in source order:
`if "LoadCommand" in command_type: ... elif "ExecuteCommand" ...
elif "GetInfoCommand" ...`; `Except.error` models the uncaught
`TypeError` when `command_type` does not support `in`. -/
def selectHandler (command_type : Json) : Except String (Option Handler) :=
  match pythonIn "LoadCommand" command_type with
  | .error m => .error m
  | .ok true => .ok (some .load)
  | .ok false =>
    match pythonIn "ExecuteCommand" command_type with
    | .error m => .error m
    | .ok true => .ok (some .execCmd)
    | .ok false =>
      match pythonIn "GetInfoCommand" command_type with
      | .error m => .error m
      | .ok true => .ok (some .getinfo)
      | .ok false => .ok none

/-- One line read from stdin, after the external JSON decoder ran on it:
either a decode failure (with the `JSONDecodeError` message) or the
decoded value. -/
inductive InputLine where
  | invalid : String → InputLine
  | valid : Json → InputLine
deriving DecidableEq

/-- The body of `main`'s `for` loop on one line: the `try`/`except
json.JSONDecodeError` block followed by the sentinel print. `Except.ok`
returns (new table, stdout lines in order, stderr lines in order);
`Except.error` models an exception the block does not catch, which
escapes `main` and kills the process (no sentinel). -/
def processLine (env : Env) (dataframes : DFTable) :
    InputLine → Except String (DFTable × List String × List String)
  | .invalid e =>
    .ok (dataframes, [sentinel], ["PYTHON_ERROR: Invalid JSON received. " ++ e])
  | .valid (.obj fields) =>
    let command_type := (jsonGet fields "type").getD .null
    match selectHandler command_type with
    | .error m => .error m
    | .ok (some .load) =>
      let r := handle_load env dataframes fields
      .ok (r.1, r.2.1 ++ [sentinel], r.2.2)
    | .ok (some .execCmd) =>
      let r := execute_code env dataframes ((jsonGet fields "code").getD .null)
      .ok (dataframes, r.1 ++ [sentinel], r.2)
    | .ok (some .getinfo) =>
      match handle_getinfo dataframes fields with
      | .ok (o, e) => .ok (dataframes, o ++ [sentinel], e)
      | .error m => .error m
    | .ok none => .ok (dataframes, [sentinel], [])
  | .valid v =>
    .error ("'" ++ typeName v ++ "' object has no attribute 'get'")

/-- The `for line in sys.stdin` loop. Returns the final table, all stdout
lines, all stderr lines, and whether the process died on an uncaught
exception (in which case the remaining lines are never read). -/
def runLoop (env : Env) (dataframes : DFTable) :
    List InputLine → DFTable × List String × List String × Bool
  | [] => (dataframes, [], [], false)
  | l :: rest =>
    match processLine env dataframes l with
    | .error _ => (dataframes, [], [], true)
    | .ok (tbl', o, e) =>
      let r := runLoop env tbl' rest
      (r.1, o ++ r.2.1, e ++ r.2.2.1, r.2.2.2)

/-- Whether one input line makes the loop body raise an exception that
nothing catches (killing the process): a decoded value that is not a dict,
a missing or non-iterable `type` value, or a GetInfo dispatch with an
unhashable `varName`. Depends only on the line. -/
def lineCrashes : InputLine → Bool
  | .invalid _ => false
  | .valid (.obj fields) =>
    match selectHandler ((jsonGet fields "type").getD .null) with
    | .error _ => true
    | .ok (some .getinfo) => !hashable ((jsonGet fields "varName").getD .null)
    | .ok _ => false
  | .valid _ => true

/-! ### Concrete instances used to evaluate the model -/

/-- A concrete DataFrame. -/
def dfA : DataFrame := ⟨"infoA", "descA", "headA"⟩

/-- A concrete environment in which every read succeeds with `dfA` and
executed code does nothing. -/
def envTriv : Env where
  read_csv := fun _ => .ok dfA
  read_excel := fun _ => .ok dfA
  read_json := fun _ => .ok dfA
  read_parquet := fun _ => .ok dfA
  runCode := fun _ g => ⟨[], [], .ok g⟩

/-- A concrete environment in which every read and every executed code
raises. -/
def envRaise : Env where
  read_csv := fun _ => .error "csv raised"
  read_excel := fun _ => .error "excel raised"
  read_json := fun _ => .error "json raised"
  read_parquet := fun _ => .error "parquet raised"
  runCode := fun _ _ => ⟨[], [], .error "name 'x' is not defined"⟩

/-! ### Dictionary lemmas -/

theorem dictKeys_nil {α : Type} : dictKeys ([] : PyDict α) = [] := rfl

theorem dictKeys_cons {α : Type} (k : Json) (v : α) (t : PyDict α) :
    dictKeys ((k, v) :: t) = k :: dictKeys t := rfl

theorem dictGet_dictSet_self {α : Type} (d : PyDict α) (k : Json) (v : α) :
    dictGet (dictSet d k v) k = some v := by
  induction d with
  | nil => simp [dictSet, dictGet]
  | cons kv t ih =>
    obtain ⟨k', v'⟩ := kv
    by_cases h : k' = k
    · simp [dictSet, dictGet, h]
    · simp [dictSet, dictGet, h, ih]

theorem dictGet_dictSet_ne {α : Type} (d : PyDict α) (k k' : Json) (v : α)
    (h : k' ≠ k) : dictGet (dictSet d k v) k' = dictGet d k' := by
  have h' : k ≠ k' := fun he => h he.symm
  induction d with
  | nil => simp [dictSet, dictGet, h']
  | cons kv t ih =>
    obtain ⟨k'', v''⟩ := kv
    by_cases h2 : k'' = k
    · subst h2
      simp [dictSet, dictGet, h']
    · by_cases h4 : k'' = k'
      · have h5 : ¬k' = k := h4 ▸ h2
        simp [dictSet, dictGet, h2, h4, h5]
      · simp [dictSet, dictGet, h2, h4, ih]

theorem mem_dictKeys_dictSet {α : Type} (d : PyDict α) (k a : Json) (v : α)
    (h : a ∈ dictKeys (dictSet d k v)) : a ∈ dictKeys d ∨ a = k := by
  induction d with
  | nil =>
    rw [show dictSet ([] : PyDict α) k v = [(k, v)] from rfl, dictKeys_cons] at h
    rcases List.mem_cons.mp h with h3 | h3
    · exact Or.inr h3
    · exact absurd h3 (List.not_mem_nil a)
  | cons kv t ih =>
    obtain ⟨k', v'⟩ := kv
    by_cases h2 : k' = k
    · rw [show dictSet ((k', v') :: t) k v = (k', v) :: t from by simp [dictSet, h2],
        dictKeys_cons] at h
      rcases List.mem_cons.mp h with h3 | h3
      · exact Or.inr (h3.trans h2)
      · exact Or.inl (by rw [dictKeys_cons]; exact List.mem_cons_of_mem _ h3)
    · rw [show dictSet ((k', v') :: t) k v = (k', v') :: dictSet t k v from by
        simp [dictSet, h2], dictKeys_cons] at h
      rcases List.mem_cons.mp h with h3 | h3
      · exact Or.inl (by rw [dictKeys_cons]; exact h3 ▸ List.mem_cons_self k' _)
      · rcases ih h3 with h4 | h4
        · exact Or.inl (by rw [dictKeys_cons]; exact List.mem_cons_of_mem _ h4)
        · exact Or.inr h4

theorem nodup_dictKeys_dictSet {α : Type} (d : PyDict α) (k : Json) (v : α)
    (h : (dictKeys d).Nodup) : (dictKeys (dictSet d k v)).Nodup := by
  induction d with
  | nil =>
    rw [show dictSet ([] : PyDict α) k v = [(k, v)] from rfl]
    simp [dictKeys_cons, dictKeys_nil]
  | cons kv t ih =>
    obtain ⟨k', v'⟩ := kv
    rw [dictKeys_cons, List.nodup_cons] at h
    by_cases h2 : k' = k
    · rw [show dictSet ((k', v') :: t) k v = (k', v) :: t from by simp [dictSet, h2],
        dictKeys_cons, List.nodup_cons]
      exact ⟨h.1, h.2⟩
    · rw [show dictSet ((k', v') :: t) k v = (k', v') :: dictSet t k v from by
        simp [dictSet, h2], dictKeys_cons, List.nodup_cons]
      refine ⟨fun hm => ?_, ih h.2⟩
      rcases mem_dictKeys_dictSet t k k' v hm with h3 | h3
      · exact h.1 h3
      · exact h2 h3

theorem dictGet_eq_none_iff {α : Type} (d : PyDict α) (k : Json) :
    dictGet d k = none ↔ k ∉ dictKeys d := by
  induction d with
  | nil => simp [dictGet, dictKeys_nil]
  | cons kv t ih =>
    obtain ⟨k', v'⟩ := kv
    rw [dictKeys_cons]
    by_cases h : k' = k
    · simp [dictGet, h, List.mem_cons]
    · have h' : k ≠ k' := fun he => h he.symm
      simp [dictGet, h, h', ih, List.mem_cons]

/-! ### The merged `exec_globals` environment -/

theorem dictGet_buildFold_not_mem (entries : DFTable) :
    ∀ (g : ExecEnv) (k : Json), k ∉ dictKeys entries →
    dictGet (entries.foldl (fun g kv => dictSet g kv.1 (PyVal.dataframe kv.2)) g) k
      = dictGet g k := by
  induction entries with
  | nil => intro g k _; rfl
  | cons kv t ih =>
    obtain ⟨k', v'⟩ := kv
    intro g k h
    rw [dictKeys_cons, List.mem_cons] at h
    push_neg at h
    rw [List.foldl_cons, ih _ _ h.2]
    exact dictGet_dictSet_ne g k' k (PyVal.dataframe v') h.1

theorem dictGet_buildFold_mem (entries : DFTable) :
    ∀ (g : ExecEnv) (k : Json) (df : DataFrame),
    (dictKeys entries).Nodup → dictGet entries k = some df →
    dictGet (entries.foldl (fun g kv => dictSet g kv.1 (PyVal.dataframe kv.2)) g) k
      = some (PyVal.dataframe df) := by
  induction entries with
  | nil => intro g k df _ h; simp [dictGet] at h
  | cons kv t ih =>
    obtain ⟨k', v'⟩ := kv
    intro g k df hnd h
    rw [dictKeys_cons, List.nodup_cons] at hnd
    rw [List.foldl_cons]
    by_cases h2 : k' = k
    · simp only [dictGet, if_pos h2] at h
      subst h2
      rw [dictGet_buildFold_not_mem t _ k' hnd.1, dictGet_dictSet_self,
        Option.some.inj h]
    · simp only [dictGet, if_neg h2] at h
      exact ih _ _ _ hnd.2 h

/-- Every dataframes entry is bound by its own name in `exec_globals`. -/
theorem buildExecGlobals_binds (tbl : DFTable) (hnd : (dictKeys tbl).Nodup)
    (n : Json) (df : DataFrame) (h : dictGet tbl n = some df) :
    dictGet (buildExecGlobals tbl) n = some (PyVal.dataframe df) :=
  dictGet_buildFold_mem tbl _ n df hnd h

/-- The `pd` handle survives the merge exactly when no dataset is named
`pd`. -/
theorem buildExecGlobals_pd (tbl : DFTable) (h : dictGet tbl (Json.str "pd") = none) :
    dictGet (buildExecGlobals tbl) (Json.str "pd") = some PyVal.pandasModule := by
  have hm : Json.str "pd" ∉ dictKeys tbl := (dictGet_eq_none_iff tbl _).mp h
  have h2 := dictGet_buildFold_not_mem tbl [(Json.str "pd", PyVal.pandasModule)]
    (Json.str "pd") hm
  unfold buildExecGlobals
  exact h2.trans rfl

/-! ### Dispatch -/

/-- On a string `type` the dispatch chain reduces to the three substring
tests in source order. -/
theorem selectHandler_str (t : String) :
    selectHandler (Json.str t) =
      .ok (if strContains t "LoadCommand" then some Handler.load
           else if strContains t "ExecuteCommand" then some Handler.execCmd
           else if strContains t "GetInfoCommand" then some Handler.getinfo
           else none) := by
  simp only [selectHandler, pythonIn]
  cases h1 : strContains t "LoadCommand" <;>
    cases h2 : strContains t "ExecuteCommand" <;>
      cases h3 : strContains t "GetInfoCommand" <;> simp [h1, h2, h3]

/-! ### File-extension facts -/

theorem isPrefixOf_false_of_head_ne {a b : Char} (hab : a ≠ b)
    (xs ys : List Char) :
    ∀ r : List Char, (a :: xs).isPrefixOf r = true →
      (b :: ys).isPrefixOf r = false := by
  intro r h
  cases r with
  | nil => simp [List.isPrefixOf] at h
  | cons c t =>
    simp only [List.isPrefixOf, Bool.and_eq_true, beq_iff_eq] at h
    have hbc : (b == c) = false := by
      refine beq_eq_false_iff_ne.mpr fun hbc => hab ?_
      rw [h.1, ← hbc]
    simp only [List.isPrefixOf, hbc, Bool.false_and]

/-- Two suffix tests whose suffixes end in different characters cannot
both succeed. -/
theorem endswith_excl (s1 s2 : String) (a b : Char) (l1 l2 : List Char)
    (h1 : s1.data.reverse = a :: l1) (h2 : s2.data.reverse = b :: l2)
    (hab : a ≠ b) (p : String) (h : endswith p s1 = true) :
    endswith p s2 = false := by
  unfold endswith List.isSuffixOf at h ⊢
  rw [h1] at h
  rw [h2]
  exact isPrefixOf_false_of_head_ne hab _ _ _ h

theorem not_csv_of_xlsx (p : String) (h : endswith p ".xlsx" = true) :
    endswith p ".csv" = false :=
  endswith_excl ".xlsx" ".csv" 'x' 'v' ['s','l','x','.'] ['s','c','.'] rfl rfl (by decide) p h

theorem not_csv_of_json (p : String) (h : endswith p ".json" = true) :
    endswith p ".csv" = false :=
  endswith_excl ".json" ".csv" 'n' 'v' ['o','s','j','.'] ['s','c','.'] rfl rfl (by decide) p h

theorem not_xlsx_of_json (p : String) (h : endswith p ".json" = true) :
    endswith p ".xlsx" = false :=
  endswith_excl ".json" ".xlsx" 'n' 'x' ['o','s','j','.'] ['s','l','x','.'] rfl rfl (by decide) p h

theorem not_csv_of_parquet (p : String) (h : endswith p ".parquet" = true) :
    endswith p ".csv" = false :=
  endswith_excl ".parquet" ".csv" 't' 'v' ['e','u','q','r','a','p','.'] ['s','c','.'] rfl rfl (by decide) p h

theorem not_xlsx_of_parquet (p : String) (h : endswith p ".parquet" = true) :
    endswith p ".xlsx" = false :=
  endswith_excl ".parquet" ".xlsx" 't' 'x' ['e','u','q','r','a','p','.'] ['s','l','x','.'] rfl rfl (by decide) p h

theorem not_json_of_parquet (p : String) (h : endswith p ".parquet" = true) :
    endswith p ".json" = false :=
  endswith_excl ".parquet" ".json" 't' 'n' ['e','u','q','r','a','p','.'] ['o','s','j','.'] rfl rfl (by decide) p h

/-! ### No message collides with the sentinel -/

theorem ne_sentinel_of_head {c : Char} {l : List Char} {s : String}
    (hs : s.data = c :: l) (hc : c ≠ '<') (t : String) :
    (s ++ t) ≠ sentinel := by
  intro he
  have h := congrArg String.data he
  rw [String.data_append, hs, List.cons_append,
    show sentinel.data = '<' :: "END_OF_OUTPUT>".data from rfl] at h
  injection h with h1 _
  exact hc h1

theorem successMsg_ne_sentinel (x y : String) :
    ("Successfully loaded '" ++ x ++ "' into DataFrame '" ++ y ++ "'.") ≠ sentinel := by
  have h := ne_sentinel_of_head
    (show ("Successfully loaded '" : String).data = 'S' :: ("uccessfully loaded '" : String).data from rfl)
    (by decide) (x ++ ("' into DataFrame '" ++ (y ++ "'.")))
  simpa [String.append_assoc] using h

theorem metadataReport_ne_sentinel (v : Json) (df : DataFrame) :
    metadataReport v df ≠ sentinel := by
  unfold metadataReport
  have h := ne_sentinel_of_head
    (show ("--- METADATA FOR " : String).data = '-' :: ("-- METADATA FOR " : String).data from rfl)
    (by decide)
    (pyStr v ++ (" ---\n\n**Info:**\n" ++ (df.info ++ ("\n**Descriptive Statistics:**\n" ++
      (df.describe ++ ("\n\n**First 5 Rows:**\n" ++ df.head))))))
  simpa [String.append_assoc] using h

/-! ### Behaviour of one loop iteration, by branch -/

theorem processLine_invalid (env : Env) (tbl : DFTable) (e : String) :
    processLine env tbl (.invalid e) =
      .ok (tbl, [sentinel], ["PYTHON_ERROR: Invalid JSON received. " ++ e]) := rfl

theorem processLine_load (env : Env) (tbl : DFTable) (fields : JsonObj) (t : String)
    (ht : jsonGet fields "type" = some (.str t))
    (hL : strContains t "LoadCommand" = true) :
    processLine env tbl (.valid (.obj fields)) =
      .ok ((handle_load env tbl fields).1,
           (handle_load env tbl fields).2.1 ++ [sentinel],
           (handle_load env tbl fields).2.2) := by
  simp [processLine, ht, selectHandler_str, hL]

theorem processLine_execute (env : Env) (tbl : DFTable) (fields : JsonObj) (t : String)
    (ht : jsonGet fields "type" = some (.str t))
    (hL : strContains t "LoadCommand" = false)
    (hE : strContains t "ExecuteCommand" = true) :
    processLine env tbl (.valid (.obj fields)) =
      .ok (tbl,
           (execute_code env tbl ((jsonGet fields "code").getD .null)).1 ++ [sentinel],
           (execute_code env tbl ((jsonGet fields "code").getD .null)).2) := by
  simp [processLine, ht, selectHandler_str, hL, hE]

theorem processLine_getinfo_found (env : Env) (tbl : DFTable) (fields : JsonObj)
    (t n : String) (df : DataFrame)
    (ht : jsonGet fields "type" = some (.str t))
    (hL : strContains t "LoadCommand" = false)
    (hE : strContains t "ExecuteCommand" = false)
    (hG : strContains t "GetInfoCommand" = true)
    (hv : jsonGet fields "varName" = some (.str n))
    (hdf : dictGet tbl (.str n) = some df) :
    processLine env tbl (.valid (.obj fields)) =
      .ok (tbl, [metadataReport (.str n) df, sentinel], []) := by
  simp [processLine, ht, selectHandler_str, hL, hE, hG, handle_getinfo, hv,
    hashable, hdf]

theorem processLine_getinfo_missing (env : Env) (tbl : DFTable) (fields : JsonObj)
    (t n : String)
    (ht : jsonGet fields "type" = some (.str t))
    (hL : strContains t "LoadCommand" = false)
    (hE : strContains t "ExecuteCommand" = false)
    (hG : strContains t "GetInfoCommand" = true)
    (hv : jsonGet fields "varName" = some (.str n))
    (hdf : dictGet tbl (.str n) = none) :
    processLine env tbl (.valid (.obj fields)) =
      .ok (tbl, [sentinel], ["PYTHON_ERROR: DataFrame '" ++ n ++ "' not found."]) := by
  simp [processLine, ht, selectHandler_str, hL, hE, hG, handle_getinfo, hv,
    hashable, hdf, pyStr]

theorem processLine_unrecognized (env : Env) (tbl : DFTable) (fields : JsonObj)
    (t : String)
    (ht : jsonGet fields "type" = some (.str t))
    (hL : strContains t "LoadCommand" = false)
    (hE : strContains t "ExecuteCommand" = false)
    (hG : strContains t "GetInfoCommand" = false) :
    processLine env tbl (.valid (.obj fields)) = .ok (tbl, [sentinel], []) := by
  simp [processLine, ht, selectHandler_str, hL, hE, hG]

theorem handle_load_ok (env : Env) (tbl : DFTable) (fields : JsonObj)
    (p n : String) (df : DataFrame)
    (hp : jsonGet fields "path" = some (.str p))
    (hn : jsonGet fields "varName" = some (.str n))
    (hdf : load_df env p = .ok df) :
    handle_load env tbl fields =
      (dictSet tbl (.str n) df,
       ["Successfully loaded '" ++ p ++ "' into DataFrame '" ++ n ++ "'."], []) := by
  simp [handle_load, hp, hn, pyLoad, hdf, hashable, pyStr]

theorem handle_load_err (env : Env) (tbl : DFTable) (fields : JsonObj)
    (p e : String)
    (hp : jsonGet fields "path" = some (.str p))
    (he : load_df env p = .error e) :
    handle_load env tbl fields =
      (tbl, [], ["PYTHON_ERROR: Failed to load data from " ++ p ++ ". Error: " ++ e]) := by
  simp [handle_load, hp, pyLoad, he, pyStr]

/-- The Load branch either leaves the table alone or performs one dict
assignment. -/
theorem handle_load_table (env : Env) (tbl : DFTable) (fields : JsonObj) :
    (handle_load env tbl fields).1 = tbl ∨
    ∃ k v, (handle_load env tbl fields).1 = dictSet tbl k v := by
  simp only [handle_load]
  rcases h : pyLoad env ((jsonGet fields "path").getD Json.null) with e | df
  · simp [h]
  · simp only [h]
    by_cases hh : hashable ((jsonGet fields "varName").getD Json.null) = true
    · simp only [hh, if_true]
      exact Or.inr ⟨_, _, rfl⟩
    · simp only [Bool.not_eq_true] at hh
      simp [hh]

/-- The Load branch prints either nothing or exactly one success line on
stdout. -/
theorem handle_load_out (env : Env) (tbl : DFTable) (fields : JsonObj) :
    (handle_load env tbl fields).2.1 = [] ∨
    ∃ x y, (handle_load env tbl fields).2.1 =
      ["Successfully loaded '" ++ x ++ "' into DataFrame '" ++ y ++ "'."] := by
  simp only [handle_load]
  rcases h : pyLoad env ((jsonGet fields "path").getD Json.null) with e | df
  · simp [h]
  · simp only [h]
    by_cases hh : hashable ((jsonGet fields "varName").getD Json.null) = true
    · simp only [hh, if_true]
      exact Or.inr ⟨_, _, rfl⟩
    · simp only [Bool.not_eq_true] at hh
      simp [hh]

/-- The Execute branch's stdout is what the executed code itself wrote
(or nothing, when `exec` rejects a non-string). -/
theorem execute_code_out (env : Env) (tbl : DFTable) (v : Json) :
    (execute_code env tbl v).1 = [] ∨
    ∃ c g, (execute_code env tbl v).1 = (env.runCode c g).out := by
  cases v with
  | str c =>
    refine Or.inr ⟨c, buildExecGlobals tbl, ?_⟩
    simp only [execute_code]
    rcases h : env.runCode c (buildExecGlobals tbl) with ⟨o, e, r⟩
    cases r <;> simp [h]
  | null => exact Or.inl rfl
  | bool b => exact Or.inl rfl
  | num n => exact Or.inl rfl
  | arr xs => exact Or.inl rfl
  | obj kvs => exact Or.inl rfl

/-- A non-crashing line is handled without any uncaught exception. -/
theorem processLine_isOk_of_not_crash (env : Env) (tbl : DFTable) (l : InputLine)
    (h : lineCrashes l = false) :
    ∃ r, processLine env tbl l = .ok r := by
  cases l with
  | invalid e => exact ⟨_, rfl⟩
  | valid j =>
    cases j with
    | obj fields =>
      cases hsel : selectHandler ((jsonGet fields "type").getD Json.null) with
      | error m =>
        simp only [lineCrashes, hsel] at h
        exact absurd h (by decide)
      | ok opt =>
        cases opt with
        | none =>
          exact ⟨(tbl, [sentinel], []), by simp [processLine, hsel]⟩
        | some hd =>
          cases hd with
          | load =>
            exact ⟨((handle_load env tbl fields).1,
                    (handle_load env tbl fields).2.1 ++ [sentinel],
                    (handle_load env tbl fields).2.2), by simp [processLine, hsel]⟩
          | execCmd =>
            exact ⟨(tbl,
                    (execute_code env tbl ((jsonGet fields "code").getD .null)).1 ++ [sentinel],
                    (execute_code env tbl ((jsonGet fields "code").getD .null)).2),
                   by simp [processLine, hsel]⟩
          | getinfo =>
            simp only [lineCrashes, hsel] at h
            have h' : hashable ((jsonGet fields "varName").getD Json.null) = true := by
              revert h
              cases hashable ((jsonGet fields "varName").getD Json.null) <;> simp
            rcases hdf : dictGet tbl ((jsonGet fields "varName").getD Json.null)
              with _ | df
            · exact ⟨(tbl, [sentinel],
                      ["PYTHON_ERROR: DataFrame '" ++
                       pyStr ((jsonGet fields "varName").getD Json.null) ++ "' not found."]),
                     by simp [processLine, hsel, handle_getinfo, h', hdf]⟩
            · exact ⟨(tbl,
                      [metadataReport ((jsonGet fields "varName").getD Json.null) df, sentinel],
                      []),
                     by simp [processLine, hsel, handle_getinfo, h', hdf]⟩
    | null => simp [lineCrashes] at h
    | bool b => simp [lineCrashes] at h
    | num n => simp [lineCrashes] at h
    | str s => simp [lineCrashes] at h
    | arr xs => simp [lineCrashes] at h

/-- A handled line either leaves the table alone or performs one dict
assignment (the Load store). -/
theorem processLine_table (env : Env) (tbl : DFTable) (l : InputLine)
    (tbl' : DFTable) (o e : List String)
    (h : processLine env tbl l = .ok (tbl', o, e)) :
    tbl' = tbl ∨ ∃ k v, tbl' = dictSet tbl k v := by
  cases l with
  | invalid m =>
    simp only [processLine, Except.ok.injEq, Prod.mk.injEq] at h
    exact Or.inl h.1.symm
  | valid j =>
    cases j with
    | obj fields =>
      cases hsel : selectHandler ((jsonGet fields "type").getD Json.null) with
      | error m => simp [processLine, hsel] at h
      | ok opt =>
        cases opt with
        | none =>
          simp only [processLine, hsel, Except.ok.injEq, Prod.mk.injEq] at h
          exact Or.inl h.1.symm
        | some hd =>
          cases hd with
          | load =>
            simp only [processLine, hsel, Except.ok.injEq, Prod.mk.injEq] at h
            rcases handle_load_table env tbl fields with h2 | ⟨k, v, h2⟩
            · exact Or.inl (h.1 ▸ h2)
            · exact Or.inr ⟨k, v, h.1 ▸ h2⟩
          | execCmd =>
            simp only [processLine, hsel, Except.ok.injEq, Prod.mk.injEq] at h
            exact Or.inl h.1.symm
          | getinfo =>
            rcases hgi : handle_getinfo tbl fields with m | ⟨o', e'⟩
            · simp [processLine, hsel, hgi] at h
            · simp only [processLine, hsel, hgi, Except.ok.injEq, Prod.mk.injEq] at h
              exact Or.inl h.1.symm
    | null => simp [processLine] at h
    | bool b => simp [processLine] at h
    | num n => simp [processLine] at h
    | str s => simp [processLine] at h
    | arr xs => simp [processLine] at h

/-- A handled line emits the sentinel exactly once on stdout, provided the
executed user code never fakes the sentinel itself. -/
theorem processLine_sentinel_count (env : Env)
    (hcode : ∀ c g, sentinel ∉ (env.runCode c g).out)
    (tbl : DFTable) (l : InputLine) (h : lineCrashes l = false) :
    ∃ tbl' o e, processLine env tbl l = .ok (tbl', o, e) ∧ o.count sentinel = 1 := by
  cases l with
  | invalid e => exact ⟨tbl, [sentinel], _, rfl, by simp⟩
  | valid j =>
    cases j with
    | obj fields =>
      cases hsel : selectHandler ((jsonGet fields "type").getD Json.null) with
      | error m =>
        simp only [lineCrashes, hsel] at h
        exact absurd h (by decide)
      | ok opt =>
        cases opt with
        | none =>
          exact ⟨tbl, [sentinel], [], by simp [processLine, hsel], by simp⟩
        | some hd =>
          cases hd with
          | load =>
            refine ⟨(handle_load env tbl fields).1,
                    (handle_load env tbl fields).2.1 ++ [sentinel],
                    (handle_load env tbl fields).2.2,
                    by simp [processLine, hsel], ?_⟩
            rw [List.count_append]
            have hz : ((handle_load env tbl fields).2.1).count sentinel = 0 := by
              rcases handle_load_out env tbl fields with h2 | ⟨x, y, h2⟩
              · rw [h2]; rfl
              · rw [h2]
                refine List.count_eq_zero.mpr fun hm => ?_
                rw [List.mem_singleton] at hm
                exact successMsg_ne_sentinel x y hm.symm
            rw [hz]
            simp
          | execCmd =>
            refine ⟨tbl,
                    (execute_code env tbl ((jsonGet fields "code").getD .null)).1 ++ [sentinel],
                    (execute_code env tbl ((jsonGet fields "code").getD .null)).2,
                    by simp [processLine, hsel], ?_⟩
            rw [List.count_append]
            have hz : ((execute_code env tbl ((jsonGet fields "code").getD .null)).1).count sentinel = 0 := by
              rcases execute_code_out env tbl ((jsonGet fields "code").getD .null)
                with h2 | ⟨c, g, h2⟩
              · rw [h2]; rfl
              · rw [h2]
                exact List.count_eq_zero.mpr (hcode c g)
            rw [hz]
            simp
          | getinfo =>
            simp only [lineCrashes, hsel] at h
            have h' : hashable ((jsonGet fields "varName").getD Json.null) = true := by
              revert h
              cases hashable ((jsonGet fields "varName").getD Json.null) <;> simp
            rcases hdf : dictGet tbl ((jsonGet fields "varName").getD Json.null)
              with _ | df
            · refine ⟨tbl, [sentinel],
                      ["PYTHON_ERROR: DataFrame '" ++
                       pyStr ((jsonGet fields "varName").getD Json.null) ++ "' not found."],
                      by simp [processLine, hsel, handle_getinfo, h', hdf], by simp⟩
            · refine ⟨tbl,
                      [metadataReport ((jsonGet fields "varName").getD Json.null) df, sentinel],
                      [],
                      by simp [processLine, hsel, handle_getinfo, h', hdf], ?_⟩
              have hz : metadataReport ((jsonGet fields "varName").getD Json.null) df ≠ sentinel :=
                metadataReport_ne_sentinel _ df
              simp [List.count_cons, hz]
    | null => simp [lineCrashes] at h
    | bool b => simp [lineCrashes] at h
    | num n => simp [lineCrashes] at h
    | str s => simp [lineCrashes] at h
    | arr xs => simp [lineCrashes] at h

/-- The loop never dies on a list of non-crashing lines. -/
theorem runLoop_no_crash (env : Env) :
    ∀ (lines : List InputLine) (tbl : DFTable),
    (∀ l ∈ lines, lineCrashes l = false) →
    (runLoop env tbl lines).2.2.2 = false := by
  intro lines
  induction lines with
  | nil => intro tbl _; rfl
  | cons l rest ih =>
    intro tbl h
    obtain ⟨⟨tbl', o, e⟩, hok⟩ := processLine_isOk_of_not_crash env tbl l
      (h l (List.mem_cons_self l rest))
    simp only [runLoop, hok]
    exact ih tbl' fun x hx => h x (List.mem_cons_of_mem l hx)

/-- One sentinel per input line, over the whole loop. -/
theorem runLoop_sentinel_count (env : Env)
    (hcode : ∀ c g, sentinel ∉ (env.runCode c g).out) :
    ∀ (lines : List InputLine) (tbl : DFTable),
    (∀ l ∈ lines, lineCrashes l = false) →
    ((runLoop env tbl lines).2.1).count sentinel = lines.length := by
  intro lines
  induction lines with
  | nil => intro tbl _; rfl
  | cons l rest ih =>
    intro tbl h
    obtain ⟨tbl', o, e, hok, hcnt⟩ := processLine_sentinel_count env hcode tbl l
      (h l (List.mem_cons_self l rest))
    simp only [runLoop, hok]
    rw [List.count_append, hcnt, ih tbl' fun x hx => h x (List.mem_cons_of_mem l hx)]
    simp [Nat.add_comm]

/-- Unfolding of the loop over a first, successfully handled line. -/
theorem runLoop_cons_ok (env : Env) (tbl : DFTable) (l : InputLine)
    (tbl' : DFTable) (o e : List String) (rest : List InputLine)
    (h : processLine env tbl l = .ok (tbl', o, e)) :
    runLoop env tbl (l :: rest) =
      ((runLoop env tbl' rest).1,
       o ++ (runLoop env tbl' rest).2.1,
       e ++ (runLoop env tbl' rest).2.2.1,
       (runLoop env tbl' rest).2.2.2) := by
  simp [runLoop, h]

/-- `s` contains the three report labels, in this order. -/
def labeledSectionsInOrder (s : String) : Prop :=
  ∃ a b c d : String,
    s = a ++ "**Info:**" ++ b ++ "**Descriptive Statistics:**" ++ c ++
        "**First 5 Rows:**" ++ d

theorem metadataReport_sections (v : Json) (df : DataFrame) :
    labeledSectionsInOrder (metadataReport v df) := by
  refine ⟨"--- METADATA FOR " ++ pyStr v ++ " ---\n\n",
          "\n" ++ df.info ++ "\n",
          "\n" ++ df.describe ++ "\n\n",
          "\n" ++ df.head, ?_⟩
  simp only [metadataReport]
  apply String.ext
  simp only [String.data_append]
  simp [List.append_assoc]

/-! ## The claims -/

/-- Claim C1, counterexample: the line `\x7b\x7d` is valid JSON, yet handling
it raises an uncaught `TypeError` (`"LoadCommand" in None`): the loop body
produces no diagnostic, emits no sentinel, and the process dies. -/
theorem claim1_crash_counterexample :
    processLine envTriv [] (InputLine.valid (Json.obj JsonObj.nil)) =
      Except.error "argument of type 'NoneType' is not iterable" ∧
    runLoop envTriv [] [InputLine.valid (Json.obj JsonObj.nil)] = ([], [], [], true) :=
  ⟨rfl, rfl⟩

/-- Claim C1 (amended): a line that is not valid JSON produces a diagnostic
on the error channel, emits the sentinel, and the loop continues; and every
line that is invalid JSON or decodes to a dict whose `type` value supports
the `in` test (with, on the GetInfo branch, a hashable `varName`) is handled
with no uncaught exception, so a stream of such lines never terminates the
process. -/
theorem claim1_error_recovery_amended :
    (∀ (env : Env) (tbl : DFTable) (e : String),
       processLine env tbl (.invalid e) =
         .ok (tbl, [sentinel], ["PYTHON_ERROR: Invalid JSON received. " ++ e])) ∧
    (∀ (env : Env) (tbl : DFTable) (l : InputLine),
       lineCrashes l = false → ∃ r, processLine env tbl l = .ok r) ∧
    (∀ (env : Env) (lines : List InputLine) (tbl : DFTable),
       (∀ l ∈ lines, lineCrashes l = false) →
       (runLoop env tbl lines).2.2.2 = false) :=
  ⟨processLine_invalid, processLine_isOk_of_not_crash,
   fun env lines tbl h => runLoop_no_crash env lines tbl h⟩

/-- Witness for C1's amended theorem at concrete inputs. -/
theorem claim1_witness :
    processLine envTriv [] (InputLine.invalid "Expecting value") =
      .ok ([], [sentinel], ["PYTHON_ERROR: Invalid JSON received. Expecting value"]) ∧
    (runLoop envTriv []
      [InputLine.valid (Json.obj (JsonObj.cons "type" (Json.str "NoSuchCommand")
        JsonObj.nil))]).2.2.2 = false :=
  ⟨claim1_error_recovery_amended.1 envTriv [] "Expecting value",
   claim1_error_recovery_amended.2.2 envTriv _ [] (by decide)⟩

/-- Claim C2, counterexample: for the one-line sequence `\x7b\x7d` the loop
writes zero sentinel lines, not one. -/
theorem claim2_sentinel_counterexample :
    ((runLoop envTriv [] [InputLine.valid (Json.obj JsonObj.nil)]).2.1).count sentinel = 0 ∧
    [InputLine.valid (Json.obj JsonObj.nil)].length = 1 :=
  ⟨rfl, rfl⟩

/-- Claim C2 (amended): for every sequence of lines none of which trips the
uncaught dispatch/lookup `TypeError`, and provided the executed user code
never writes the sentinel token itself, stdout carries exactly one sentinel
per input line — each emitted at the end of its own line's handling, before
the next line is processed. -/
theorem claim2_sentinel_count_amended (env : Env) (lines : List InputLine)
    (tbl : DFTable)
    (hcode : ∀ c g, sentinel ∉ (env.runCode c g).out)
    (h : ∀ l ∈ lines, lineCrashes l = false) :
    ((runLoop env tbl lines).2.1).count sentinel = lines.length :=
  runLoop_sentinel_count env hcode lines tbl h

/-- Witness for C2's amended theorem on a concrete three-line session. -/
theorem claim2_witness :
    ((runLoop envTriv []
      [InputLine.invalid "bad",
       InputLine.valid (Json.obj (JsonObj.cons "type" (Json.str "LoadCommand")
         (JsonObj.cons "path" (Json.str "a.csv")
           (JsonObj.cons "varName" (Json.str "df") JsonObj.nil)))),
       InputLine.valid (Json.obj (JsonObj.cons "type" (Json.str "GetInfoCommand")
         (JsonObj.cons "varName" (Json.str "df") JsonObj.nil)))]).2.1).count sentinel = 3 :=
  claim2_sentinel_count_amended envTriv _ []
    (fun c g => by simp [envTriv]) (by decide)

/-- Claim C3, counterexample: the type string "LoadCommandExecuteCommand"
contains "ExecuteCommand", yet dispatch selects the Load handler, not the
Execute handler. -/
theorem claim3_substring_counterexample :
    strContains "LoadCommandExecuteCommand" "ExecuteCommand" = true ∧
    selectHandler (Json.str "LoadCommandExecuteCommand") =
      Except.ok (some Handler.load) ∧
    Handler.load ≠ Handler.execCmd :=
  ⟨rfl, rfl, by decide⟩

/-- Claim C3 (amended): dispatch is by substring containment tested in
source order (Load, then Execute, then GetInfo): a type containing
"LoadCommand" selects Load; one containing "ExecuteCommand" but not
"LoadCommand" selects Execute; one containing "GetInfoCommand" but neither
of the others selects GetInfo; and a type string containing none of the
three runs no handler and produces no diagnostic — only the sentinel. -/
theorem claim3_dispatch_amended (t : String) :
    (strContains t "LoadCommand" = true →
       selectHandler (Json.str t) = .ok (some Handler.load)) ∧
    (strContains t "LoadCommand" = false → strContains t "ExecuteCommand" = true →
       selectHandler (Json.str t) = .ok (some Handler.execCmd)) ∧
    (strContains t "LoadCommand" = false → strContains t "ExecuteCommand" = false →
       strContains t "GetInfoCommand" = true →
       selectHandler (Json.str t) = .ok (some Handler.getinfo)) ∧
    (strContains t "LoadCommand" = false → strContains t "ExecuteCommand" = false →
       strContains t "GetInfoCommand" = false →
       ∀ (env : Env) (tbl : DFTable) (fields : JsonObj),
         jsonGet fields "type" = some (Json.str t) →
         processLine env tbl (.valid (.obj fields)) = .ok (tbl, [sentinel], [])) := by
  refine ⟨fun h1 => ?_, fun h1 h2 => ?_, fun h1 h2 h3 => ?_,
          fun h1 h2 h3 env tbl fields ht => ?_⟩
  · rw [selectHandler_str]; simp [h1]
  · rw [selectHandler_str]; simp [h1, h2]
  · rw [selectHandler_str]; simp [h1, h2, h3]
  · exact processLine_unrecognized env tbl fields t ht h1 h2 h3

/-- Witness for C3's amended theorem at concrete type strings. -/
theorem claim3_witness :
    selectHandler (Json.str "MyLoadCommand") = .ok (some Handler.load) ∧
    processLine envTriv []
      (InputLine.valid (Json.obj (JsonObj.cons "type" (Json.str "Hello") JsonObj.nil))) =
      .ok ([], [sentinel], []) :=
  ⟨(claim3_dispatch_amended "MyLoadCommand").1 (by decide),
   (claim3_dispatch_amended "Hello").2.2.2 (by decide) (by decide) (by decide)
     envTriv [] _ rfl⟩

/-- Claim C10: when a type string contains several recognized tags exactly
one handler runs, by source precedence: "LoadCommand" beats everything;
"ExecuteCommand" beats "GetInfoCommand" when "LoadCommand" is absent. -/
theorem claim10_dispatch_precedence (t : String) :
    (strContains t "LoadCommand" = true →
       selectHandler (Json.str t) = .ok (some Handler.load)) ∧
    (strContains t "ExecuteCommand" = true → strContains t "LoadCommand" = false →
       selectHandler (Json.str t) = .ok (some Handler.execCmd)) := by
  refine ⟨fun h1 => ?_, fun h2 h1 => ?_⟩
  · rw [selectHandler_str]; simp [h1]
  · rw [selectHandler_str]; simp [h1, h2]

/-- Witness for C10 at type strings containing several tags. -/
theorem claim10_witness :
    selectHandler (Json.str "LoadCommandExecuteCommandGetInfoCommand") =
      .ok (some Handler.load) ∧
    selectHandler (Json.str "ExecuteCommandGetInfoCommand") =
      .ok (some Handler.execCmd) :=
  ⟨(claim10_dispatch_precedence "LoadCommandExecuteCommandGetInfoCommand").1 (by decide),
   (claim10_dispatch_precedence "ExecuteCommandGetInfoCommand").2 (by decide) (by decide)⟩

/-- Claim C4: the loader is chosen by the path's extension — `.csv`,
`.xlsx`, `.json`, `.parquet` go to the four distinct pandas readers; any
other extension is an unsupported-format failure whose diagnostic on the
error channel names the path. -/
theorem claim4_extension_dispatch (env : Env) (p : String) :
    (endswith p ".csv" = true → load_df env p = env.read_csv p) ∧
    (endswith p ".xlsx" = true → load_df env p = env.read_excel p) ∧
    (endswith p ".json" = true → load_df env p = env.read_json p) ∧
    (endswith p ".parquet" = true → load_df env p = env.read_parquet p) ∧
    (endswith p ".csv" = false → endswith p ".xlsx" = false →
     endswith p ".json" = false → endswith p ".parquet" = false →
       load_df env p = .error ("Unsupported file type for: " ++ p) ∧
       ∀ (tbl : DFTable) (fields : JsonObj) (t : String),
         jsonGet fields "type" = some (Json.str t) →
         strContains t "LoadCommand" = true →
         jsonGet fields "path" = some (Json.str p) →
         processLine env tbl (.valid (.obj fields)) =
           .ok (tbl, [sentinel],
                ["PYTHON_ERROR: Failed to load data from " ++ p ++
                 ". Error: " ++ ("Unsupported file type for: " ++ p)])) := by
  refine ⟨fun h => by simp [load_df, h],
          fun h => by simp [load_df, not_csv_of_xlsx p h, h],
          fun h => by simp [load_df, not_csv_of_json p h, not_xlsx_of_json p h, h],
          fun h => by simp [load_df, not_csv_of_parquet p h, not_xlsx_of_parquet p h,
            not_json_of_parquet p h, h],
          fun h1 h2 h3 h4 => ?_⟩
  have hload : load_df env p = .error ("Unsupported file type for: " ++ p) := by
    simp [load_df, h1, h2, h3, h4]
  refine ⟨hload, fun tbl fields t ht hL hp => ?_⟩
  rw [processLine_load env tbl fields t ht hL,
      handle_load_err env tbl fields p _ hp hload]
  simp

/-- Witness for C4 at concrete paths. -/
theorem claim4_witness :
    load_df envTriv "a.xlsx" = envTriv.read_excel "a.xlsx" ∧
    load_df envTriv "a.txt" = .error ("Unsupported file type for: " ++ "a.txt") :=
  ⟨(claim4_extension_dispatch envTriv "a.xlsx").2.1 (by decide),
   ((claim4_extension_dispatch envTriv "a.txt").2.2.2.2
      (by decide) (by decide) (by decide) (by decide)).1⟩

/-- Claim C5: a failing Load (reader raised, or unsupported extension)
prints a diagnostic containing the path and the underlying error text on
the error channel and leaves the dataset table exactly unchanged. -/
theorem claim5_load_failure (env : Env) (tbl : DFTable) (fields : JsonObj)
    (t p e : String)
    (ht : jsonGet fields "type" = some (Json.str t))
    (hL : strContains t "LoadCommand" = true)
    (hp : jsonGet fields "path" = some (Json.str p))
    (he : load_df env p = .error e) :
    processLine env tbl (.valid (.obj fields)) =
      .ok (tbl, [sentinel],
           ["PYTHON_ERROR: Failed to load data from " ++ p ++ ". Error: " ++ e]) := by
  rw [processLine_load env tbl fields t ht hL, handle_load_err env tbl fields p e hp he]
  simp

/-- Witness for C5: a raising csv reader leaves the empty table empty. -/
theorem claim5_witness :
    processLine envRaise []
      (InputLine.valid (Json.obj (JsonObj.cons "type" (Json.str "LoadCommand")
        (JsonObj.cons "path" (Json.str "data.csv")
          (JsonObj.cons "varName" (Json.str "df") JsonObj.nil))))) =
      .ok ([], [sentinel],
           ["PYTHON_ERROR: Failed to load data from data.csv. Error: csv raised"]) := by
  have h := claim5_load_failure envRaise []
    (JsonObj.cons "type" (Json.str "LoadCommand")
      (JsonObj.cons "path" (Json.str "data.csv")
        (JsonObj.cons "varName" (Json.str "df") JsonObj.nil)))
    "LoadCommand" "data.csv" "csv raised" rfl (by decide) rfl rfl
  exact h

/-- A second concrete DataFrame, distinct from `dfA`. -/
def dfB : DataFrame := ⟨"infoB", "descB", "headB"⟩

/-- Claim C6: after any handled command the table keeps at most one entry
per name, and a successful Load stores the loaded table under the given
name — replacing any previous entry wholesale and touching no other name —
and prints one success confirmation on stdout. -/
theorem claim6_table_invariant :
    (∀ (env : Env) (tbl : DFTable) (l : InputLine) (tbl' : DFTable)
       (o e : List String),
       processLine env tbl l = .ok (tbl', o, e) →
       (dictKeys tbl).Nodup → (dictKeys tbl').Nodup) ∧
    (∀ (env : Env) (tbl : DFTable) (fields : JsonObj) (t p n : String)
       (df : DataFrame),
       jsonGet fields "type" = some (Json.str t) →
       strContains t "LoadCommand" = true →
       jsonGet fields "path" = some (Json.str p) →
       jsonGet fields "varName" = some (Json.str n) →
       load_df env p = .ok df →
       processLine env tbl (.valid (.obj fields)) =
         .ok (dictSet tbl (Json.str n) df,
              ["Successfully loaded '" ++ p ++ "' into DataFrame '" ++ n ++ "'.",
               sentinel], []) ∧
       dictGet (dictSet tbl (Json.str n) df) (Json.str n) = some df ∧
       (∀ k, k ≠ Json.str n →
          dictGet (dictSet tbl (Json.str n) df) k = dictGet tbl k)) := by
  constructor
  · intro env tbl l tbl' o e h hnd
    rcases processLine_table env tbl l tbl' o e h with h2 | ⟨k, v, h2⟩
    · exact h2.symm ▸ hnd
    · exact h2.symm ▸ nodup_dictKeys_dictSet tbl k v hnd
  · intro env tbl fields t p n df ht hL hp hn hdf
    refine ⟨?_, dictGet_dictSet_self tbl (Json.str n) df,
            fun k hk => dictGet_dictSet_ne tbl (Json.str n) k df hk⟩
    rw [processLine_load env tbl fields t ht hL,
        handle_load_ok env tbl fields p n df hp hn hdf]
    simp

/-- Witness for C6: re-loading the name `df` replaces its entry. -/
theorem claim6_witness :
    processLine envTriv [(Json.str "df", dfB)]
      (InputLine.valid (Json.obj (JsonObj.cons "type" (Json.str "LoadCommand")
        (JsonObj.cons "path" (Json.str "b.json")
          (JsonObj.cons "varName" (Json.str "df") JsonObj.nil))))) =
      .ok ([(Json.str "df", dfA)],
           ["Successfully loaded 'b.json' into DataFrame 'df'.", sentinel], []) ∧
    dictGet (dictSet [(Json.str "df", dfB)] (Json.str "df") dfA)
      (Json.str "df") = some dfA := by
  have h := claim6_table_invariant.2 envTriv [(Json.str "df", dfB)]
    (JsonObj.cons "type" (Json.str "LoadCommand")
      (JsonObj.cons "path" (Json.str "b.json")
        (JsonObj.cons "varName" (Json.str "df") JsonObj.nil)))
    "LoadCommand" "b.json" "df" dfA rfl (by decide) rfl rfl rfl
  exact ⟨h.1, h.2.1⟩

/-- Claim C7, counterexample: with a dataset named "pd" in the table, the
merged `exec_globals` binds "pd" to that DataFrame — the pandas library
handle is shadowed, so the environment does not contain it. -/
theorem claim7_pd_shadow_counterexample :
    dictGet (buildExecGlobals [(Json.str "pd", dfA)]) (Json.str "pd") =
      some (PyVal.dataframe dfA) ∧
    some (PyVal.dataframe dfA) ≠ some PyVal.pandasModule :=
  ⟨rfl, by decide⟩

/-- Claim C7 (amended): the execution environment binds every current
dataset entry by its own name and, unless a dataset is itself named "pd",
the pandas handle under "pd"; and because that environment is a merged
scratch copy, handling an Execute command never changes which entries the
process-wide dataset table maps names to. -/
theorem claim7_execute_env_amended (tbl : DFTable)
    (hnd : (dictKeys tbl).Nodup) :
    (∀ (n : Json) (df : DataFrame), dictGet tbl n = some df →
       dictGet (buildExecGlobals tbl) n = some (PyVal.dataframe df)) ∧
    (dictGet tbl (Json.str "pd") = none →
       dictGet (buildExecGlobals tbl) (Json.str "pd") = some PyVal.pandasModule) ∧
    (∀ (env : Env) (fields : JsonObj) (t : String),
       jsonGet fields "type" = some (Json.str t) →
       strContains t "LoadCommand" = false →
       strContains t "ExecuteCommand" = true →
       ∀ (tbl' : DFTable) (o e : List String),
         processLine env tbl (.valid (.obj fields)) = .ok (tbl', o, e) →
         tbl' = tbl) := by
  refine ⟨fun n df h => buildExecGlobals_binds tbl hnd n df h,
          fun h => buildExecGlobals_pd tbl h,
          fun env fields t ht hL hE tbl' o e h => ?_⟩
  rw [processLine_execute env tbl fields t ht hL hE] at h
  simp only [Except.ok.injEq, Prod.mk.injEq] at h
  exact h.1.symm

/-- Witness for C7's amended theorem at a one-entry table. -/
theorem claim7_witness :
    dictGet (buildExecGlobals [(Json.str "a", dfA)]) (Json.str "a") =
      some (PyVal.dataframe dfA) ∧
    dictGet (buildExecGlobals [(Json.str "a", dfA)]) (Json.str "pd") =
      some PyVal.pandasModule :=
  ⟨(claim7_execute_env_amended [(Json.str "a", dfA)] (by decide)).1
     (Json.str "a") dfA rfl,
   (claim7_execute_env_amended [(Json.str "a", dfA)] (by decide)).2.1 rfl⟩

/-- Claim C8: an Execute whose code raises gets the exception caught and
reported as exactly one extra diagnostic line on stderr, tagged
`PYTHON_ERROR: ` and carrying the exception's message; the loop then goes
on to process the remaining lines unchanged. -/
theorem claim8_execute_error (env : Env) (tbl : DFTable) (fields : JsonObj)
    (t c msg : String) (o e : List String)
    (ht : jsonGet fields "type" = some (Json.str t))
    (hL : strContains t "LoadCommand" = false)
    (hE : strContains t "ExecuteCommand" = true)
    (hc : jsonGet fields "code" = some (Json.str c))
    (hrun : env.runCode c (buildExecGlobals tbl) = ⟨o, e, .error msg⟩) :
    processLine env tbl (.valid (.obj fields)) =
      .ok (tbl, o ++ [sentinel], e ++ ["PYTHON_ERROR: " ++ msg]) ∧
    ∀ rest : List InputLine,
      runLoop env tbl (.valid (.obj fields) :: rest) =
        ((runLoop env tbl rest).1,
         (o ++ [sentinel]) ++ (runLoop env tbl rest).2.1,
         (e ++ ["PYTHON_ERROR: " ++ msg]) ++ (runLoop env tbl rest).2.2.1,
         (runLoop env tbl rest).2.2.2) := by
  have hexec : execute_code env tbl ((jsonGet fields "code").getD .null) =
      (o, e ++ ["PYTHON_ERROR: " ++ msg]) := by
    simp [hc, execute_code, hrun]
  have h1 : processLine env tbl (.valid (.obj fields)) =
      .ok (tbl, o ++ [sentinel], e ++ ["PYTHON_ERROR: " ++ msg]) := by
    rw [processLine_execute env tbl fields t ht hL hE, hexec]
  exact ⟨h1, fun rest => runLoop_cons_ok env tbl _ tbl (o ++ [sentinel])
    (e ++ ["PYTHON_ERROR: " ++ msg]) rest h1⟩

/-- Witness for C8: a raising Execute on the empty table. -/
theorem claim8_witness :
    processLine envRaise []
      (InputLine.valid (Json.obj (JsonObj.cons "type" (Json.str "ExecuteCommand")
        (JsonObj.cons "code" (Json.str "print(df)") JsonObj.nil)))) =
      .ok ([], [sentinel], ["PYTHON_ERROR: name 'x' is not defined"]) :=
  (claim8_execute_error envRaise []
    (JsonObj.cons "type" (Json.str "ExecuteCommand")
      (JsonObj.cons "code" (Json.str "print(df)") JsonObj.nil))
    "ExecuteCommand" "print(df)" "name 'x' is not defined" [] []
    rfl (by decide) (by decide) rfl rfl).1

/-- Claim C9: a GetInfo produces a report exactly when the name is loaded:
if present, one stdout message containing the three labeled sections in
fixed order (Info, then Descriptive Statistics, then First 5 Rows); if
absent, a not-found diagnostic on stderr and no report. -/
theorem claim9_getinfo (env : Env) (tbl : DFTable) (fields : JsonObj)
    (t n : String)
    (ht : jsonGet fields "type" = some (Json.str t))
    (hL : strContains t "LoadCommand" = false)
    (hE : strContains t "ExecuteCommand" = false)
    (hG : strContains t "GetInfoCommand" = true)
    (hv : jsonGet fields "varName" = some (Json.str n)) :
    (∀ df : DataFrame, dictGet tbl (Json.str n) = some df →
       processLine env tbl (.valid (.obj fields)) =
         .ok (tbl, [metadataReport (Json.str n) df, sentinel], []) ∧
       labeledSectionsInOrder (metadataReport (Json.str n) df)) ∧
    (dictGet tbl (Json.str n) = none →
       processLine env tbl (.valid (.obj fields)) =
         .ok (tbl, [sentinel], ["PYTHON_ERROR: DataFrame '" ++ n ++ "' not found."])) :=
  ⟨fun df hdf => ⟨processLine_getinfo_found env tbl fields t n df ht hL hE hG hv hdf,
                  metadataReport_sections (Json.str n) df⟩,
   fun hdf => processLine_getinfo_missing env tbl fields t n ht hL hE hG hv hdf⟩

/-- Witness for C9 in both the present and the absent case. -/
theorem claim9_witness :
    processLine envTriv [(Json.str "df", dfA)]
      (InputLine.valid (Json.obj (JsonObj.cons "type" (Json.str "GetInfoCommand")
        (JsonObj.cons "varName" (Json.str "df") JsonObj.nil)))) =
      .ok ([(Json.str "df", dfA)], [metadataReport (Json.str "df") dfA, sentinel], []) ∧
    processLine envTriv []
      (InputLine.valid (Json.obj (JsonObj.cons "type" (Json.str "GetInfoCommand")
        (JsonObj.cons "varName" (Json.str "missing") JsonObj.nil)))) =
      .ok ([], [sentinel], ["PYTHON_ERROR: DataFrame 'missing' not found."]) :=
  ⟨((claim9_getinfo envTriv [(Json.str "df", dfA)]
      (JsonObj.cons "type" (Json.str "GetInfoCommand")
        (JsonObj.cons "varName" (Json.str "df") JsonObj.nil))
      "GetInfoCommand" "df" rfl (by decide) (by decide) (by decide) rfl).1 dfA rfl).1,
   (claim9_getinfo envTriv []
      (JsonObj.cons "type" (Json.str "GetInfoCommand")
        (JsonObj.cons "varName" (Json.str "missing") JsonObj.nil))
      "GetInfoCommand" "missing" rfl (by decide) (by decide) (by decide) rfl).2 rfl⟩
